import Mathlib

/-!
# Profiling probes of `fluid_sys.h`

A shallow embedding of the profiling interface of
`src/fluidsynth-cb/utils/fluid_sys.h` (the `WITH_PROFILING` branch):
the probe record `fluid_profile_data_t`, the command/status register, and the
three probe macros `fluid_profile_data`, `fluid_profile` and
`fluid_profile_write`; and of the atomic float cell
`fluid_atomic_float_set` / `fluid_atomic_float_get`.

Conventions of the embedding
* C `double` is `Dbl`: the two infinities, NaN and the finite values, the
  finite values being rationals on which `+`, `-` and the comparisons are
  exact (no rounding, no overflow to infinity).
* C `unsigned int` is `Nat` kept below `2 ^ 32` by an explicit `% 2 ^ 32`
  after every addition; `unsigned char fluid_profile_status` is a `Nat`.
* The macro arguments `voices` and `samples` are the values added to the
  `unsigned int` fields, as naturals.
* A macro that assigns to its argument `_ref` returns the new value of
  `_ref` next to the new global state.
* `fluid_utime()` and `fluid_synth_get_ticks(synth)` are external: the clock is
  a sequence of finite readings consumed one per call, the tick is an argument.
* For the atomic float cell a C `float` is its 32-bit pattern, an object in
  memory is its list of bytes, and `int32_t` is an `Int` in two's complement.
  Both types share one byte order (least significant byte first here).
-/

namespace FluidSys

/-! ## C doubles with exact finite arithmetic -/

/-- A C `double`: NaN, minus infinity, a finite value, plus infinity. -/
inductive Dbl where
  | nan : Dbl
  | ninf : Dbl
  | fin (q : ℚ) : Dbl
  | pinf : Dbl
deriving DecidableEq

namespace Dbl

/-- The C comparison `a < b` on doubles; false as soon as one side is NaN. -/
def lt : Dbl → Dbl → Bool
  | nan, _ => false
  | _, nan => false
  | ninf, ninf => false
  | ninf, _ => true
  | fin _, ninf => false
  | fin a, fin b => decide (a < b)
  | fin _, pinf => true
  | pinf, _ => false

/-- The C comparison `a > b` on doubles. -/
def gt (a b : Dbl) : Bool := lt b a

/-- The C comparison `a <= b` on doubles; false as soon as one side is NaN. -/
def le : Dbl → Dbl → Bool
  | nan, _ => false
  | _, nan => false
  | ninf, _ => true
  | fin _, ninf => false
  | fin a, fin b => decide (a ≤ b)
  | fin _, pinf => true
  | pinf, pinf => true
  | pinf, _ => false

/-- The C sum `a + b` on doubles: NaN propagates, opposite infinities give NaN. -/
def add : Dbl → Dbl → Dbl
  | nan, _ => nan
  | _, nan => nan
  | ninf, pinf => nan
  | pinf, ninf => nan
  | ninf, _ => ninf
  | pinf, _ => pinf
  | fin _, ninf => ninf
  | fin _, pinf => pinf
  | fin a, fin b => fin (a + b)

/-- The C difference `a - b` on doubles. -/
def sub : Dbl → Dbl → Dbl
  | nan, _ => nan
  | _, nan => nan
  | ninf, ninf => nan
  | pinf, pinf => nan
  | ninf, _ => ninf
  | pinf, _ => pinf
  | fin _, ninf => pinf
  | fin _, pinf => ninf
  | fin a, fin b => fin (a - b)

end Dbl

/-! ## Data of the profiling interface -/

/-- The probe record `fluid_profile_data_t` (fluid_sys.h, lines 454-461). -/
structure fluid_profile_data_t where
  description : String
  min : Dbl
  max : Dbl
  total : Dbl
  count : Nat
  n_voices : Nat
  n_samples : Nat

/-- Command `PROFILE_STOP` of the command/status enum. -/
abbrev PROFILE_STOP : Nat := 0
/-- Command `PROFILE_START` of the command/status enum. -/
abbrev PROFILE_START : Nat := 1
/-- Status `PROFILE_READY` of the command/status enum. -/
abbrev PROFILE_READY : Nat := 2
/-- State `PROFILE_RUNNING` of the command/status enum. -/
abbrev PROFILE_RUNNING : Nat := 3
/-- State `PROFILE_CANCELED` of the command/status enum. -/
abbrev PROFILE_CANCELED : Nat := 4

/-- Number of probes `FLUID_PROFILE_NBR`, the last entry of the probe enum. -/
abbrev FLUID_PROFILE_NBR : Nat := 9
/-- Probe identifier `FLUID_PROF_WRITE`, the first of the probe enum. -/
abbrev FLUID_PROF_WRITE : Fin FLUID_PROFILE_NBR := 0

/-- The microsecond clock behind `fluid_utime()`: `readings k` is the value the
call number `k` returns, `reads` counts the calls made so far. -/
structure Clock where
  readings : Nat → ℚ
  reads : Nat

/-- Modelled from the spec: `fluid_utime` is only declared in fluid_sys.h
(line 111), its body is in fluid_sys.c. It is the "monotonic microsecond
clock" of the spec: every call returns the next (finite) reading. -/
def fluid_utime (c : Clock) : Dbl × Clock :=
  (Dbl.fin (c.readings c.reads), { c with reads := c.reads + 1 })

/-- The state the probe macros read and write: the clock and the three
`extern` variables of the data interface (fluid_sys.h, lines 477-479). -/
structure World where
  utime : Clock
  fluid_profile_status : Nat
  fluid_profile_end_ticks : Nat
  fluid_profile_data : Fin FLUID_PROFILE_NBR → fluid_profile_data_t

/-- Modelled from the spec: the reset of one probe is in fluid_sys.c, which is
absent. Spec 4.1: it "zeroes count/total/n_voices/n_samples and sets
min = +infinity, max = -infinity". -/
def reset_probe (p : fluid_profile_data_t) : fluid_profile_data_t :=
  { p with min := Dbl.pinf, max := Dbl.ninf, total := Dbl.fin 0,
           count := 0, n_voices := 0, n_samples := 0 }

/-- The world in which probe `_num` has just been reset. -/
def reset_at (_num : Fin FLUID_PROFILE_NBR) (w : World) : World :=
  { w with fluid_profile_data :=
      Function.update w.fluid_profile_data _num (reset_probe (w.fluid_profile_data _num)) }

/-! ## The probe macros -/

/-- The macro `fluid_profile_data(_num, _ref, voices, samples)`
(fluid_sys.h, lines 513-526). Returns the new state and the new `_ref`. -/
def fluid_profile_data (_num : Fin FLUID_PROFILE_NBR) (_ref : Dbl) (voices samples : Nat)
    (w : World) : World × Dbl :=
  let t := fluid_utime w.utime
  let _now := t.1
  let _delta := Dbl.sub _now _ref
  let p := w.fluid_profile_data _num
  let p := { p with min := if Dbl.lt _delta p.min then _delta else p.min }
  let p := { p with max := if Dbl.gt _delta p.max then _delta else p.max }
  let p := { p with total := Dbl.add p.total _delta }
  let p := { p with count := (p.count + 1) % 2 ^ 32 }
  let p := { p with n_voices := (p.n_voices + voices) % 2 ^ 32 }
  let p := { p with n_samples := (p.n_samples + samples) % 2 ^ 32 }
  ({ w with utime := t.2, fluid_profile_data := Function.update w.fluid_profile_data _num p },
   _now)

/-- The macro `fluid_profile(_num, _ref, voices, samples)`
(fluid_sys.h, lines 530-536). -/
def fluid_profile (_num : Fin FLUID_PROFILE_NBR) (_ref : Dbl) (voices samples : Nat)
    (w : World) : World × Dbl :=
  if w.fluid_profile_status = PROFILE_START then
    fluid_profile_data _num _ref voices samples w
  else
    (w, _ref)

/-- The macro `fluid_profile_write(_num, _ref, voices, samples)`
(fluid_sys.h, lines 541-555); `ticks` is the value of
`fluid_synth_get_ticks(synth)` at the call. -/
def fluid_profile_write (ticks : Nat) (_num : Fin FLUID_PROFILE_NBR) (_ref : Dbl)
    (voices samples : Nat) (w : World) : World × Dbl :=
  if w.fluid_profile_status = PROFILE_START then
    let r := fluid_profile_data _num _ref voices samples w
    if ticks ≥ r.1.fluid_profile_end_ticks then
      ({ r.1 with fluid_profile_status := PROFILE_READY }, r.2)
    else
      r
  else
    (w, _ref)

/-! ## Sequences of macro calls -/

/-- One call of the recording macro on a fixed probe: the value of the caller's
reference variable (a clock reading, hence finite) and the two workload
arguments. -/
structure Call where
  ref : ℚ
  voices : Nat
  samples : Nat

/-- The calls `cs` of `fluid_profile_data` applied to probe `_num` one after
another, each with its own reference time. -/
def record_all (_num : Fin FLUID_PROFILE_NBR) : List Call → World → World
  | [], w => w
  | c :: cs, w =>
      record_all _num cs (fluid_profile_data _num (Dbl.fin c.ref) c.voices c.samples w).1

/-- The durations the calls `cs` observe when the first of them makes the clock
call number `k`: call `i` sees `readings (k + i) - ref_i`. -/
def observed (readings : Nat → ℚ) : Nat → List Call → List ℚ
  | _, [] => []
  | k, c :: cs => (readings k - c.ref) :: observed readings (k + 1) cs

/-- The calls of `fluid_profile_data` on probe `_num` chained through one shared
reference variable: each call starts from the `_ref` the previous call left.
A call is given by its `(voices, samples)` arguments. -/
def record_chain (_num : Fin FLUID_PROFILE_NBR) : List (Nat × Nat) → World × Dbl → World × Dbl
  | [], s => s
  | a :: cs, s => record_chain _num cs (fluid_profile_data _num s.2 a.1 a.2 s.1)

/-- One call of `fluid_profile_write`: the tick the synth reports, the caller's
reference variable and the two workload arguments. -/
structure WriteCall where
  ticks : Nat
  ref : Dbl
  voices : Nat
  samples : Nat

/-- The audio-side calls `cs` of `fluid_profile_write` applied to probe `_num`
one after another. -/
def write_all (_num : Fin FLUID_PROFILE_NBR) : List WriteCall → World → World
  | [], w => w
  | c :: cs, w =>
      write_all _num cs (fluid_profile_write c.ticks _num c.ref c.voices c.samples w).1

/-- What the body of `fluid_profile_data` does to the probe it addresses, given
the measured `_delta`. -/
def probe_step (d : Dbl) (voices samples : Nat) (p : fluid_profile_data_t) :
    fluid_profile_data_t :=
  { description := p.description
    min := if Dbl.lt d p.min then d else p.min
    max := if Dbl.gt d p.max then d else p.max
    total := Dbl.add p.total d
    count := (p.count + 1) % 2 ^ 32
    n_voices := (p.n_voices + voices) % 2 ^ 32
    n_samples := (p.n_samples + samples) % 2 ^ 32 }

/-! ## Concrete states used to exercise the theorems -/

/-- A probe with nothing recorded. -/
def probe0 : fluid_profile_data_t :=
  reset_probe { description := "", min := Dbl.nan, max := Dbl.nan, total := Dbl.nan,
                count := 7, n_voices := 7, n_samples := 7 }

/-- A clock whose call number `k` returns `1000 + 10 * k` microseconds. -/
def clock0 : Clock := { readings := fun k => 1000 + 10 * (k : ℚ), reads := 0 }

/-- A started session ending at tick 100, all probes cleared. -/
def world0 : World :=
  { utime := clock0, fluid_profile_status := PROFILE_START,
    fluid_profile_end_ticks := 100, fluid_profile_data := fun _ => probe0 }

/-- A block rendered before the end of the session of `world0`. -/
def block_early : WriteCall := { ticks := 0, ref := Dbl.fin 990, voices := 0, samples := 64 }

/-- A block rendered once the end of the session of `world0` has been reached. -/
def block_late : WriteCall := { ticks := 100, ref := Dbl.fin 990, voices := 0, samples := 64 }

/-- The session of `world0` once it is ready to be printed. -/
def world_ready : World := { world0 with fluid_profile_status := PROFILE_READY }

/-- A probe whose count has reached the largest `unsigned int`. -/
def probe_full : fluid_profile_data_t :=
  { description := "", min := Dbl.fin 10, max := Dbl.fin 10, total := Dbl.fin 42949672950,
    count := 4294967295, n_voices := 0, n_samples := 0 }

/-- A started session ending at tick 100 in which every probe has already been
recorded `2 ^ 32 - 1` times. -/
def world_full : World := { world0 with fluid_profile_data := fun _ => probe_full }

/-! ## The atomic float cell -/

/-- The four bytes of a 32-bit pattern, least significant byte first. -/
def bytes_of_bits (b : Nat) : List Nat :=
  [b % 256, b / 256 % 256, b / 65536 % 256, b / 16777216 % 256]

/-- The pattern held by a sequence of bytes, least significant byte first. -/
def bits_of_bytes (bs : List Nat) : Nat :=
  bs.foldr (fun b acc => b % 256 + 256 * acc) 0

/-- Object representation of a C `float`, the value being given by its
binary32 bit pattern (sign, exponent, fraction: every pattern is a value,
NaNs, infinities and signed zeros included). -/
def float_bytes (val : Nat) : List Nat := bytes_of_bits (val % 2 ^ 32)

/-- The `float`, as a bit pattern, held by the first four bytes of an object. -/
def float_of_bytes (bs : List Nat) : Nat := bits_of_bytes (bs.take 4)

/-- Object representation of an `int32_t`: two's complement on four bytes. -/
def int32_bytes (ival : Int) : List Nat := bytes_of_bits (ival % 2 ^ 32).toNat

/-- The `int32_t` held by the first four bytes of an object. -/
def int32_of_bytes (bs : List Nat) : Int :=
  if bits_of_bytes (bs.take 4) < 2 ^ 31 then (bits_of_bytes (bs.take 4) : Int)
  else (bits_of_bytes (bs.take 4) : Int) - 2 ^ 32

/-- The C library call `memcpy(dst, src, n)`: the first `n` bytes of `dst` are
replaced by the first `n` bytes of `src`. -/
def memcpy (dst src : List Nat) (n : Nat) : List Nat := src.take n ++ dst.drop n

/-- The macro `fluid_atomic_int_set(_pi, _val)` (fluid_sys.h, line 276), GLib's
`g_atomic_int_set`: the int is stored into the four bytes at `_pi`. -/
def fluid_atomic_int_set (_pi : List Nat) (_val : Int) : List Nat :=
  int32_bytes _val ++ _pi.drop 4

/-- The macro `fluid_atomic_int_get(_pi)` (fluid_sys.h, line 275), GLib's
`g_atomic_int_get`: the int held by the four bytes at `_pi`. -/
def fluid_atomic_int_get (_pi : List Nat) : Int := int32_of_bytes _pi

/-- The function `fluid_atomic_float_set(fptr, val)` (fluid_sys.h, lines
299-305); `fptr` is the content of the cell, the result its new content. The
local `ival` starts from the bytes of 0: `memcpy` overwrites all four. -/
def fluid_atomic_float_set (fptr : List Nat) (val : Nat) : List Nat :=
  let ival := int32_of_bytes (memcpy (int32_bytes 0) (float_bytes val) 4)
  fluid_atomic_int_set fptr ival

/-- The function `fluid_atomic_float_get(fptr)` (fluid_sys.h, lines 307-315);
`fptr` is the content of the cell. The local `fval` starts from the bytes of
0: `memcpy` overwrites all four. -/
def fluid_atomic_float_get (fptr : List Nat) : Nat :=
  let ival := fluid_atomic_int_get fptr
  let fval := float_of_bytes (memcpy (float_bytes 0) (int32_bytes ival) 4)
  fval

/-! ## Basic facts about one recording -/

theorem lt_fin_fin (a b : ℚ) : Dbl.lt (Dbl.fin a) (Dbl.fin b) = decide (a < b) := rfl

theorem lt_fin_pinf (a : ℚ) : Dbl.lt (Dbl.fin a) Dbl.pinf = true := rfl

theorem gt_fin_fin (a b : ℚ) : Dbl.gt (Dbl.fin a) (Dbl.fin b) = decide (b < a) := rfl

theorem gt_fin_ninf (a : ℚ) : Dbl.gt (Dbl.fin a) Dbl.ninf = true := rfl

theorem add_fin_fin (a b : ℚ) : Dbl.add (Dbl.fin a) (Dbl.fin b) = Dbl.fin (a + b) := rfl

theorem sub_fin_fin (a b : ℚ) : Dbl.sub (Dbl.fin a) (Dbl.fin b) = Dbl.fin (a - b) := rfl

theorem le_fin_fin (a b : ℚ) : Dbl.le (Dbl.fin a) (Dbl.fin b) = decide (a ≤ b) := rfl

/-- The probe addressed by `fluid_profile_data` is updated by `probe_step`
with the delta between the clock reading and the reference. -/
theorem data_probe (n : Fin FLUID_PROFILE_NBR) (r : Dbl) (v s : Nat) (w : World) :
    (fluid_profile_data n r v s w).1.fluid_profile_data n
      = probe_step (Dbl.sub (Dbl.fin (w.utime.readings w.utime.reads)) r) v s
          (w.fluid_profile_data n) := by
  simp [fluid_profile_data, fluid_utime, probe_step]

/-- Probes other than the addressed one are not touched by `fluid_profile_data`. -/
theorem data_other (n m : Fin FLUID_PROFILE_NBR) (h : m ≠ n) (r : Dbl) (v s : Nat) (w : World) :
    (fluid_profile_data n r v s w).1.fluid_profile_data m = w.fluid_profile_data m := by
  simp [fluid_profile_data, Function.update_noteq h]

theorem data_clock (n : Fin FLUID_PROFILE_NBR) (r : Dbl) (v s : Nat) (w : World) :
    (fluid_profile_data n r v s w).1.utime
      = { readings := w.utime.readings, reads := w.utime.reads + 1 } := by
  simp [fluid_profile_data, fluid_utime]

theorem data_ref (n : Fin FLUID_PROFILE_NBR) (r : Dbl) (v s : Nat) (w : World) :
    (fluid_profile_data n r v s w).2 = Dbl.fin (w.utime.readings w.utime.reads) := by
  simp [fluid_profile_data, fluid_utime]

theorem data_status (n : Fin FLUID_PROFILE_NBR) (r : Dbl) (v s : Nat) (w : World) :
    (fluid_profile_data n r v s w).1.fluid_profile_status = w.fluid_profile_status := by
  simp [fluid_profile_data]

theorem data_end_ticks (n : Fin FLUID_PROFILE_NBR) (r : Dbl) (v s : Nat) (w : World) :
    (fluid_profile_data n r v s w).1.fluid_profile_end_ticks = w.fluid_profile_end_ticks := by
  simp [fluid_profile_data]

/-! ## Running minimum and maximum of a list -/

theorem foldl_min_le_init (ds : List ℚ) (m : ℚ) : ds.foldl min m ≤ m := by
  induction ds generalizing m with
  | nil => simp
  | cons d ds ih => exact le_trans (ih (min m d)) (min_le_left m d)

theorem foldl_min_le_mem (ds : List ℚ) (m : ℚ) : ∀ d ∈ ds, ds.foldl min m ≤ d := by
  induction ds generalizing m with
  | nil => simp
  | cons e ds ih =>
    intro d hd
    rcases List.mem_cons.mp hd with h | h
    · subst h
      exact le_trans (foldl_min_le_init ds (min m d)) (min_le_right m d)
    · exact ih (min m e) d h

theorem foldl_min_mem (ds : List ℚ) (m : ℚ) : ds.foldl min m = m ∨ ds.foldl min m ∈ ds := by
  induction ds generalizing m with
  | nil => simp
  | cons e ds ih =>
    rcases ih (min m e) with h | h
    · rcases min_choice m e with h2 | h2
      · left; rw [List.foldl_cons, h, h2]
      · right; rw [List.foldl_cons, h, h2]; exact List.mem_cons_self _ _
    · right; exact List.mem_cons_of_mem _ h

theorem foldl_max_ge_init (ds : List ℚ) (m : ℚ) : m ≤ ds.foldl max m := by
  induction ds generalizing m with
  | nil => simp
  | cons d ds ih => exact le_trans (le_max_left m d) (ih (max m d))

theorem foldl_max_ge_mem (ds : List ℚ) (m : ℚ) : ∀ d ∈ ds, d ≤ ds.foldl max m := by
  induction ds generalizing m with
  | nil => simp
  | cons e ds ih =>
    intro d hd
    rcases List.mem_cons.mp hd with h | h
    · subst h
      exact le_trans (le_max_right m d) (foldl_max_ge_init ds (max m d))
    · exact ih (max m e) d h

theorem foldl_max_mem (ds : List ℚ) (m : ℚ) : ds.foldl max m = m ∨ ds.foldl max m ∈ ds := by
  induction ds generalizing m with
  | nil => simp
  | cons e ds ih =>
    rcases ih (max m e) with h | h
    · rcases max_choice m e with h2 | h2
      · left; rw [List.foldl_cons, h, h2]
      · right; rw [List.foldl_cons, h, h2]; exact List.mem_cons_self _ _
    · right; exact List.mem_cons_of_mem _ h

/-- A lower bound of every element, times the length, is below the sum. -/
theorem length_mul_le_sum (ds : List ℚ) (m : ℚ) (h : ∀ d ∈ ds, m ≤ d) :
    m * (ds.length : ℚ) ≤ ds.sum := by
  induction ds with
  | nil => simp
  | cons e ds ih =>
    have h1 : m ≤ e := h e (List.mem_cons_self _ _)
    have h2 := ih (fun d hd => h d (List.mem_cons_of_mem _ hd))
    simp only [List.length_cons, List.sum_cons, Nat.cast_add, Nat.cast_one]
    linarith

/-- An upper bound of every element, times the length, is above the sum. -/
theorem sum_le_length_mul (ds : List ℚ) (m : ℚ) (h : ∀ d ∈ ds, d ≤ m) :
    ds.sum ≤ m * (ds.length : ℚ) := by
  induction ds with
  | nil => simp
  | cons e ds ih =>
    have h1 : e ≤ m := h e (List.mem_cons_self _ _)
    have h2 := ih (fun d hd => h d (List.mem_cons_of_mem _ hd))
    simp only [List.length_cons, List.sum_cons, Nat.cast_add, Nat.cast_one]
    linarith

/-! ## Recording a sequence on one probe -/

/-- One recording of a finite delta on a probe whose aggregates are finite. -/
theorem probe_step_fin (d m M t : ℚ) (v s : Nat) (p : fluid_profile_data_t)
    (hm : p.min = Dbl.fin m) (hM : p.max = Dbl.fin M) (ht : p.total = Dbl.fin t) :
    (probe_step (Dbl.fin d) v s p).min = Dbl.fin (min m d) ∧
    (probe_step (Dbl.fin d) v s p).max = Dbl.fin (max M d) ∧
    (probe_step (Dbl.fin d) v s p).total = Dbl.fin (t + d) := by
  refine ⟨?_, ?_, ?_⟩
  · simp only [probe_step, hm, lt_fin_fin]
    by_cases h : d < m
    · simp [h, min_eq_right (le_of_lt h)]
    · simp [h, min_eq_left (not_lt.mp h)]
  · simp only [probe_step, hM, gt_fin_fin]
    by_cases h : M < d
    · simp [h, max_eq_right (le_of_lt h)]
    · simp [h, max_eq_left (not_lt.mp h)]
  · simp [probe_step, ht, add_fin_fin]

/-- One recording of a finite delta on a probe that has just been reset. -/
theorem probe_step_reset (d : ℚ) (v s : Nat) (p : fluid_profile_data_t) :
    (probe_step (Dbl.fin d) v s (reset_probe p)).min = Dbl.fin d ∧
    (probe_step (Dbl.fin d) v s (reset_probe p)).max = Dbl.fin d ∧
    (probe_step (Dbl.fin d) v s (reset_probe p)).total = Dbl.fin d ∧
    (probe_step (Dbl.fin d) v s (reset_probe p)).count = 1 := by
  simp [probe_step, reset_probe, lt_fin_pinf, gt_fin_ninf, add_fin_fin]

/-- The aggregates after the calls `cs` on a probe whose aggregates are finite:
running minimum, running maximum, running sum, and the count modulo `2 ^ 32`. -/
theorem record_all_fin (n : Fin FLUID_PROFILE_NBR) (cs : List Call) :
    ∀ (w : World) (m M t : ℚ), (w.fluid_profile_data n).min = Dbl.fin m →
      (w.fluid_profile_data n).max = Dbl.fin M → (w.fluid_profile_data n).total = Dbl.fin t →
      (w.fluid_profile_data n).count < 2 ^ 32 →
      ((record_all n cs w).fluid_profile_data n).min
          = Dbl.fin ((observed w.utime.readings w.utime.reads cs).foldl min m) ∧
      ((record_all n cs w).fluid_profile_data n).max
          = Dbl.fin ((observed w.utime.readings w.utime.reads cs).foldl max M) ∧
      ((record_all n cs w).fluid_profile_data n).total
          = Dbl.fin (t + (observed w.utime.readings w.utime.reads cs).sum) ∧
      ((record_all n cs w).fluid_profile_data n).count
          = ((w.fluid_profile_data n).count + cs.length) % 2 ^ 32 := by
  induction cs with
  | nil =>
    intro w m M t hm hM ht hc
    simp only [record_all, observed, List.foldl_nil, List.sum_nil, List.length_nil, add_zero]
    exact ⟨hm, hM, ht, (Nat.mod_eq_of_lt hc).symm⟩
  | cons c cs ih =>
    intro w m M t hm hM ht hc
    have hp := data_probe n (Dbl.fin c.ref) c.voices c.samples w
    have hk := data_clock n (Dbl.fin c.ref) c.voices c.samples w
    rw [sub_fin_fin] at hp
    obtain ⟨h1, h2, h3⟩ := probe_step_fin (w.utime.readings w.utime.reads - c.ref) m M t
      c.voices c.samples (w.fluid_profile_data n) hm hM ht
    have h4 : (probe_step (Dbl.fin (w.utime.readings w.utime.reads - c.ref)) c.voices c.samples
        (w.fluid_profile_data n)).count < 2 ^ 32 := Nat.mod_lt _ (by norm_num)
    rw [← hp] at h1 h2 h3 h4
    obtain ⟨i1, i2, i3, i4⟩ := ih _ _ _ _ h1 h2 h3 h4
    rw [hk] at i1 i2 i3
    simp only [record_all, observed, List.foldl_cons, List.sum_cons, List.length_cons]
    refine ⟨i1, i2, ?_, ?_⟩
    · rw [i3, add_assoc]
    · rw [i4, hp]
      simp only [probe_step]
      omega

theorem reset_at_probe (n : Fin FLUID_PROFILE_NBR) (w : World) :
    (reset_at n w).fluid_profile_data n = reset_probe (w.fluid_profile_data n) := by
  simp [reset_at]

theorem reset_at_utime (n : Fin FLUID_PROFILE_NBR) (w : World) :
    (reset_at n w).utime = w.utime := rfl

theorem observed_length (f : Nat → ℚ) (cs : List Call) :
    ∀ k, (observed f k cs).length = cs.length := by
  induction cs with
  | nil => intro k; rfl
  | cons c cs ih => intro k; simp [observed, ih]

/-- The aggregates after at least one call on a probe that has just been reset:
the minimum, the maximum and the sum of the observed durations, and the number
of calls modulo `2 ^ 32`. -/
theorem record_all_reset (n : Fin FLUID_PROFILE_NBR) (c : Call) (cs : List Call) (w : World) :
    ∃ m M : ℚ,
      m ∈ observed w.utime.readings w.utime.reads (c :: cs) ∧
      (∀ d ∈ observed w.utime.readings w.utime.reads (c :: cs), m ≤ d) ∧
      M ∈ observed w.utime.readings w.utime.reads (c :: cs) ∧
      (∀ d ∈ observed w.utime.readings w.utime.reads (c :: cs), d ≤ M) ∧
      ((record_all n (c :: cs) (reset_at n w)).fluid_profile_data n).min = Dbl.fin m ∧
      ((record_all n (c :: cs) (reset_at n w)).fluid_profile_data n).max = Dbl.fin M ∧
      ((record_all n (c :: cs) (reset_at n w)).fluid_profile_data n).total
        = Dbl.fin (observed w.utime.readings w.utime.reads (c :: cs)).sum ∧
      ((record_all n (c :: cs) (reset_at n w)).fluid_profile_data n).count
        = (c :: cs).length % 2 ^ 32 := by
  have hp := data_probe n (Dbl.fin c.ref) c.voices c.samples (reset_at n w)
  have hk := data_clock n (Dbl.fin c.ref) c.voices c.samples (reset_at n w)
  rw [sub_fin_fin, reset_at_probe, reset_at_utime] at hp
  rw [reset_at_utime] at hk
  obtain ⟨h1, h2, h3, h4⟩ := probe_step_reset (w.utime.readings w.utime.reads - c.ref)
    c.voices c.samples (w.fluid_profile_data n)
  rw [← hp] at h1 h2 h3 h4
  obtain ⟨i1, i2, i3, i4⟩ := record_all_fin n cs _ _ _ _ h1 h2 h3 (by rw [h4]; norm_num)
  rw [hk] at i1 i2 i3
  simp only [record_all, observed]
  refine ⟨_, _, ?_, ?_, ?_, ?_, i1, i2, ?_, ?_⟩
  · rcases foldl_min_mem (observed w.utime.readings (w.utime.reads + 1) cs)
        (w.utime.readings w.utime.reads - c.ref) with h | h
    · rw [h]; exact List.mem_cons_self _ _
    · exact List.mem_cons_of_mem _ h
  · intro d hd
    rcases List.mem_cons.mp hd with h | h
    · rw [h]; exact foldl_min_le_init _ _
    · exact foldl_min_le_mem _ _ d h
  · rcases foldl_max_mem (observed w.utime.readings (w.utime.reads + 1) cs)
        (w.utime.readings w.utime.reads - c.ref) with h | h
    · rw [h]; exact List.mem_cons_self _ _
    · exact List.mem_cons_of_mem _ h
  · intro d hd
    rcases List.mem_cons.mp hd with h | h
    · rw [h]; exact foldl_max_ge_init _ _
    · exact foldl_max_ge_mem _ _ d h
  · rw [i3, List.sum_cons]
  · rw [i4, h4, List.length_cons, Nat.add_comm]

/-! ## Claims on the recording macro -/

/-- C1: on a probe that has just been reset, after `N >= 1` calls of
`fluid_profile_data` with `N < 2 ^ 32`, the probe has `count = N`, `min` the
minimum, `max` the maximum and `total` the sum of the `N` observed durations
(exact arithmetic on the durations). -/
theorem record_count_min_max_total (w : World) (n : Fin FLUID_PROFILE_NBR) (c : Call)
    (cs : List Call) (hN : (c :: cs).length < 2 ^ 32) :
    let p := (record_all n (c :: cs) (reset_at n w)).fluid_profile_data n
    let ds := observed w.utime.readings w.utime.reads (c :: cs)
    ds.length = (c :: cs).length ∧
    p.count = (c :: cs).length ∧
    (∃ m ∈ ds, (∀ d ∈ ds, m ≤ d) ∧ p.min = Dbl.fin m) ∧
    (∃ M ∈ ds, (∀ d ∈ ds, d ≤ M) ∧ p.max = Dbl.fin M) ∧
    p.total = Dbl.fin ds.sum := by
  intro p ds
  obtain ⟨m, M, h1, h2, h3, h4, h5, h6, h7, h8⟩ := record_all_reset n c cs w
  refine ⟨observed_length _ _ _, ?_, ⟨m, h1, h2, h5⟩, ⟨M, h3, h4, h6⟩, h7⟩
  show p.count = _
  rw [h8, Nat.mod_eq_of_lt hN]

/-- C1 at a concrete input: two calls on a cleared probe of `world0`. -/
theorem record_count_min_max_total_witness :
    ([Call.mk 0 2 128, Call.mk 3 1 64].length < 2 ^ 32) ∧
    (let p := (record_all 0 [Call.mk 0 2 128, Call.mk 3 1 64]
        (reset_at 0 world0)).fluid_profile_data 0
     let ds := observed world0.utime.readings world0.utime.reads
        [Call.mk 0 2 128, Call.mk 3 1 64]
     ds.length = [Call.mk 0 2 128, Call.mk 3 1 64].length ∧
     p.count = [Call.mk 0 2 128, Call.mk 3 1 64].length ∧
     (∃ m ∈ ds, (∀ d ∈ ds, m ≤ d) ∧ p.min = Dbl.fin m) ∧
     (∃ M ∈ ds, (∀ d ∈ ds, d ≤ M) ∧ p.max = Dbl.fin M) ∧
     p.total = Dbl.fin ds.sum) :=
  ⟨by decide, record_count_min_max_total world0 0 (Call.mk 0 2 128) [Call.mk 3 1 64] (by decide)⟩

/-- C2, amended: when the status is `PROFILE_START` and the synth tick has
reached `fluid_profile_end_ticks`, `fluid_profile_write` is exactly one
recording on the given probe followed by the store of `PROFILE_READY` into the
status. The count becomes `(count + 1) mod 2 ^ 32`, which is `count + 1`
whenever `count < 2 ^ 32 - 1`, and min, max, total, n_voices and n_samples are
updated from the one sample. -/
theorem write_records_then_ready (ticks : Nat) (n : Fin FLUID_PROFILE_NBR) (r : Dbl)
    (v s : Nat) (w : World) (hs : w.fluid_profile_status = PROFILE_START)
    (ht : ticks ≥ w.fluid_profile_end_ticks) :
    let res := fluid_profile_write ticks n r v s w
    let one := fluid_profile_data n r v s w
    let d := Dbl.sub (Dbl.fin (w.utime.readings w.utime.reads)) r
    let p := w.fluid_profile_data n
    res = ({ one.1 with fluid_profile_status := PROFILE_READY }, one.2) ∧
    res.1.fluid_profile_status = PROFILE_READY ∧
    (res.1.fluid_profile_data n).count = (p.count + 1) % 2 ^ 32 ∧
    (p.count + 1 < 2 ^ 32 → (res.1.fluid_profile_data n).count = p.count + 1) ∧
    (res.1.fluid_profile_data n).min = (if Dbl.lt d p.min then d else p.min) ∧
    (res.1.fluid_profile_data n).max = (if Dbl.gt d p.max then d else p.max) ∧
    (res.1.fluid_profile_data n).total = Dbl.add p.total d ∧
    (res.1.fluid_profile_data n).n_voices = (p.n_voices + v) % 2 ^ 32 ∧
    (res.1.fluid_profile_data n).n_samples = (p.n_samples + s) % 2 ^ 32 := by
  intro res one d p
  have he : ticks ≥ (fluid_profile_data n r v s w).1.fluid_profile_end_ticks := by
    rw [data_end_ticks]; exact ht
  have hres : res = ({ one.1 with fluid_profile_status := PROFILE_READY }, one.2) := by
    show fluid_profile_write ticks n r v s w = _
    simp only [fluid_profile_write, hs, if_true, he]
  have hp : res.1.fluid_profile_data n = probe_step d v s p := by
    rw [hres]; exact data_probe n r v s w
  refine ⟨hres, ?_, ?_, ?_, ?_, ?_, ?_, ?_, ?_⟩
  · rw [hres]
  · rw [hp]; rfl
  · intro hlt; rw [hp]; exact Nat.mod_eq_of_lt hlt
  all_goals rw [hp]; rfl

/-- C2 amended, at the scenario of the spec: `end_ticks = 100`, cleared probes, tick 150:
the status afterwards is `PROFILE_READY` and the probe has `count >= 1`. -/
theorem write_records_then_ready_witness :
    world0.fluid_profile_status = PROFILE_START ∧ world0.fluid_profile_end_ticks = 100 ∧
    (fluid_profile_write 150 0 (Dbl.fin 990) 2 128 world0).1.fluid_profile_status
      = PROFILE_READY ∧
    1 ≤ ((fluid_profile_write 150 0 (Dbl.fin 990) 2 128 world0).1.fluid_profile_data 0).count :=
  ⟨rfl, rfl,
   (write_records_then_ready 150 0 (Dbl.fin 990) 2 128 world0 rfl (by decide)).2.1,
   le_of_eq (write_records_then_ready 150 0 (Dbl.fin 990) 2 128 world0 rfl
     (by decide)).2.2.1.symm⟩

/-! ## Sessions driven by `fluid_profile_write` -/

/-- Outside `PROFILE_START` the macro `fluid_profile_write` is the identity. -/
theorem write_inactive (ticks : Nat) (n : Fin FLUID_PROFILE_NBR) (r : Dbl) (v s : Nat)
    (w : World) (hs : w.fluid_profile_status ≠ PROFILE_START) :
    fluid_profile_write ticks n r v s w = (w, r) := by
  simp [fluid_profile_write, hs]

/-- Once the status has left `PROFILE_START`, further blocks change nothing. -/
theorem write_all_inactive (n : Fin FLUID_PROFILE_NBR) (cs : List WriteCall) :
    ∀ w : World, w.fluid_profile_status ≠ PROFILE_START → write_all n cs w = w := by
  induction cs with
  | nil => intro w _; rfl
  | cons c cs ih =>
    intro w hs
    simp only [write_all]
    rw [write_inactive _ _ _ _ _ _ hs]
    exact ih w hs

/-- One block while the status is `PROFILE_START`: the count of the probe is
incremented, the end position is kept, and the status follows the tick test. -/
theorem write_active (ticks : Nat) (n : Fin FLUID_PROFILE_NBR) (r : Dbl) (v s : Nat)
    (w : World) (hs : w.fluid_profile_status = PROFILE_START) :
    ((fluid_profile_write ticks n r v s w).1.fluid_profile_data n).count
      = ((w.fluid_profile_data n).count + 1) % 2 ^ 32 ∧
    (fluid_profile_write ticks n r v s w).1.fluid_profile_end_ticks
      = w.fluid_profile_end_ticks ∧
    (fluid_profile_write ticks n r v s w).1.fluid_profile_status
      = (if ticks ≥ w.fluid_profile_end_ticks then PROFILE_READY else PROFILE_START) := by
  by_cases ht : ticks ≥ w.fluid_profile_end_ticks
  · have he : ticks ≥ (fluid_profile_data n r v s w).1.fluid_profile_end_ticks := by
      rw [data_end_ticks]; exact ht
    have hres : fluid_profile_write ticks n r v s w
        = ({ (fluid_profile_data n r v s w).1 with fluid_profile_status := PROFILE_READY },
           (fluid_profile_data n r v s w).2) := by
      simp only [fluid_profile_write, hs, if_true, he]
    rw [hres]
    refine ⟨?_, ?_, ?_⟩
    · show ((fluid_profile_data n r v s w).1.fluid_profile_data n).count = _
      rw [data_probe]; rfl
    · exact data_end_ticks n r v s w
    · simp [ht]
  · have he : ¬ ticks ≥ (fluid_profile_data n r v s w).1.fluid_profile_end_ticks := by
      rw [data_end_ticks]; exact ht
    have hres : fluid_profile_write ticks n r v s w = fluid_profile_data n r v s w := by
      simp only [fluid_profile_write, hs, if_true, he, if_false]
    rw [hres]
    refine ⟨?_, data_end_ticks n r v s w, ?_⟩
    · rw [data_probe]; rfl
    · rw [data_status, hs]; simp [ht]

theorem write_all_append (n : Fin FLUID_PROFILE_NBR) (as bs : List WriteCall) :
    ∀ w : World, write_all n (as ++ bs) w = write_all n bs (write_all n as w) := by
  induction as with
  | nil => intro w; rfl
  | cons a as ih => intro w; simp only [List.cons_append, write_all]; exact ih _

/-- The session invariant: starting in `PROFILE_START`, after the blocks `cs`
either the session is still started and every block was recorded, or it is
ready and between one and `cs.length` blocks were recorded; the count is the
number of recorded blocks modulo `2 ^ 32`. -/
theorem write_all_count (n : Fin FLUID_PROFILE_NBR) (cs : List WriteCall) :
    ∀ w : World, w.fluid_profile_status = PROFILE_START →
      ((write_all n cs w).fluid_profile_status = PROFILE_START ∧
        ((write_all n cs w).fluid_profile_data n).count % 2 ^ 32
          = ((w.fluid_profile_data n).count + cs.length) % 2 ^ 32) ∨
      ((write_all n cs w).fluid_profile_status = PROFILE_READY ∧
        ∃ j, 1 ≤ j ∧ j ≤ cs.length ∧
          ((write_all n cs w).fluid_profile_data n).count
            = ((w.fluid_profile_data n).count + j) % 2 ^ 32) := by
  induction cs with
  | nil => intro w hs; left; exact ⟨hs, rfl⟩
  | cons c cs ih =>
    intro w hs
    obtain ⟨h1, _, h3⟩ := write_active c.ticks n c.ref c.voices c.samples w hs
    simp only [write_all, List.length_cons]
    by_cases ht : c.ticks ≥ w.fluid_profile_end_ticks
    · rw [if_pos ht] at h3
      right
      rw [write_all_inactive n cs _ (by rw [h3]; decide)]
      exact ⟨h3, 1, le_refl 1, by omega, h1⟩
    · rw [if_neg ht] at h3
      rcases ih _ h3 with ⟨i1, i2⟩ | ⟨i1, j, j1, j2, i2⟩
      · left
        refine ⟨i1, ?_⟩
        rw [i2, h1]; omega
      · right
        refine ⟨i1, j + 1, by omega, by omega, ?_⟩
        rw [i2, h1]; omega

/-- Blocks rendered before the end position keep the session started and are
all recorded. -/
theorem write_all_replicate (n : Fin FLUID_PROFILE_NBR) (c : WriteCall) (k : Nat) :
    ∀ w : World, w.fluid_profile_status = PROFILE_START →
      c.ticks < w.fluid_profile_end_ticks →
      (write_all n (List.replicate k c) w).fluid_profile_status = PROFILE_START ∧
      (write_all n (List.replicate k c) w).fluid_profile_end_ticks
        = w.fluid_profile_end_ticks ∧
      ((write_all n (List.replicate k c) w).fluid_profile_data n).count % 2 ^ 32
        = ((w.fluid_profile_data n).count + k) % 2 ^ 32 := by
  induction k with
  | zero => intro w hs _; exact ⟨hs, rfl, rfl⟩
  | succ k ih =>
    intro w hs ht
    obtain ⟨h1, h2, h3⟩ := write_active c.ticks n c.ref c.voices c.samples w hs
    rw [if_neg (not_le.mpr ht)] at h3
    obtain ⟨i1, i2, i3⟩ := ih _ h3 (by rw [h2]; exact ht)
    simp only [List.replicate_succ, write_all]
    refine ⟨i1, by rw [i2, h2], ?_⟩
    rw [i3, h1]; omega

/-- A block at or after the end position, rendered after the blocks `pre` have
left the session started, is recorded and makes the session ready. -/
theorem write_all_last (n : Fin FLUID_PROFILE_NBR) (pre : List WriteCall) (c : WriteCall)
    (w : World) (hs : (write_all n pre w).fluid_profile_status = PROFILE_START)
    (ht : c.ticks ≥ (write_all n pre w).fluid_profile_end_ticks) :
    (write_all n (pre ++ [c]) w).fluid_profile_status = PROFILE_READY ∧
    ((write_all n (pre ++ [c]) w).fluid_profile_data n).count
      = (((write_all n pre w).fluid_profile_data n).count + 1) % 2 ^ 32 := by
  obtain ⟨k1, _, k3⟩ := write_active c.ticks n c.ref c.voices c.samples _ hs
  rw [if_pos ht] at k3
  rw [write_all_append]
  exact ⟨k3, k1⟩

/-- C3, as stated, fails: a session of `world0` (started, probes cleared) in
which `2 ^ 32 - 1` blocks are rendered before the end position and one block
after it is `PROFILE_READY` with a zero count on the write probe. -/
theorem ready_with_zero_count :
    world0.fluid_profile_status = PROFILE_START ∧
    (world0.fluid_profile_data FLUID_PROF_WRITE).count = 0 ∧
    (write_all FLUID_PROF_WRITE (List.replicate (2 ^ 32 - 1) block_early ++ [block_late])
        world0).fluid_profile_status = PROFILE_READY ∧
    ((write_all FLUID_PROF_WRITE (List.replicate (2 ^ 32 - 1) block_early ++ [block_late])
        world0).fluid_profile_data FLUID_PROF_WRITE).count = 0 := by
  have hc0 : (world0.fluid_profile_data FLUID_PROF_WRITE).count = 0 := rfl
  obtain ⟨h1, h2, h3⟩ := write_all_replicate FLUID_PROF_WRITE block_early (2 ^ 32 - 1) world0
    rfl (by decide)
  have ht : block_late.ticks ≥ (write_all FLUID_PROF_WRITE
      (List.replicate (2 ^ 32 - 1) block_early) world0).fluid_profile_end_ticks := by
    rw [h2]; decide
  obtain ⟨k1, k2⟩ := write_all_last FLUID_PROF_WRITE _ block_late world0 h1 ht
  rw [hc0] at h3
  refine ⟨rfl, hc0, k1, ?_⟩
  rw [k2]; omega

/-- C3, amended: in a session that begins in `PROFILE_START` with the write
probe reset, after fewer than `2 ^ 32` calls of `fluid_profile_write`, whenever
the status is `PROFILE_READY` the count of the probe is at least one; and a
first block at or after the end position makes the session ready with
count one. -/
theorem ready_implies_recorded (n : Fin FLUID_PROFILE_NBR) (cs : List WriteCall) (w : World)
    (hs : w.fluid_profile_status = PROFILE_START) (hc : (w.fluid_profile_data n).count = 0)
    (hlen : cs.length < 2 ^ 32) :
    ((write_all n cs w).fluid_profile_status = PROFILE_READY →
      1 ≤ ((write_all n cs w).fluid_profile_data n).count) ∧
    (∀ c : WriteCall, c.ticks ≥ w.fluid_profile_end_ticks →
      (write_all n [c] w).fluid_profile_status = PROFILE_READY ∧
      ((write_all n [c] w).fluid_profile_data n).count = 1) := by
  constructor
  · intro hr
    rcases write_all_count n cs w hs with ⟨i1, _⟩ | ⟨_, j, j1, j2, i2⟩
    · rw [hr] at i1; exact absurd i1 (by decide)
    · rw [i2, hc]; omega
  · intro c ht
    obtain ⟨h1, _, h3⟩ := write_active c.ticks n c.ref c.voices c.samples w hs
    rw [if_pos ht] at h3
    refine ⟨h3, ?_⟩
    show ((fluid_profile_write c.ticks n c.ref c.voices c.samples w).1.fluid_profile_data n).count
      = 1
    rw [h1, hc]; norm_num

/-- C3 amended, at a concrete session: one early block, then one late block. -/
theorem ready_implies_recorded_witness :
    world0.fluid_profile_status = PROFILE_START ∧
    (world0.fluid_profile_data FLUID_PROF_WRITE).count = 0 ∧
    [block_early, block_late].length < 2 ^ 32 ∧
    (write_all FLUID_PROF_WRITE [block_early, block_late] world0).fluid_profile_status
      = PROFILE_READY ∧
    1 ≤ ((write_all FLUID_PROF_WRITE [block_early, block_late]
      world0).fluid_profile_data FLUID_PROF_WRITE).count :=
  ⟨rfl, rfl, by decide, rfl,
   (ready_implies_recorded FLUID_PROF_WRITE [block_early, block_late] world0 rfl rfl
     (by decide)).1 rfl⟩

/-! ## Wrap of the count in one block -/

/-- C2, as stated, fails: in `world_full` (started, end position 100, count
`2 ^ 32 - 1` on the write probe) a block at tick 150 makes the session
`PROFILE_READY`, but the count of the probe, instead of growing by one, has
wrapped to 0. -/
theorem ready_block_count_wraps :
    world_full.fluid_profile_status = PROFILE_START ∧
    150 ≥ world_full.fluid_profile_end_ticks ∧
    (world_full.fluid_profile_data FLUID_PROF_WRITE).count = 4294967295 ∧
    (fluid_profile_write 150 FLUID_PROF_WRITE (Dbl.fin 990) 2 128
        world_full).1.fluid_profile_status = PROFILE_READY ∧
    ((fluid_profile_write 150 FLUID_PROF_WRITE (Dbl.fin 990) 2 128
        world_full).1.fluid_profile_data FLUID_PROF_WRITE).count = 0 ∧
    ((fluid_profile_write 150 FLUID_PROF_WRITE (Dbl.fin 990) 2 128
        world_full).1.fluid_profile_data FLUID_PROF_WRITE).count
      ≠ (world_full.fluid_profile_data FLUID_PROF_WRITE).count + 1 := by
  obtain ⟨h1, _, h3⟩ := write_active 150 FLUID_PROF_WRITE (Dbl.fin 990) 2 128 world_full rfl
  have hc : (world_full.fluid_profile_data FLUID_PROF_WRITE).count = 4294967295 := rfl
  have he : 150 ≥ world_full.fluid_profile_end_ticks := by decide
  rw [if_pos he] at h3
  rw [hc] at h1
  have h0 : ((fluid_profile_write 150 FLUID_PROF_WRITE (Dbl.fin 990) 2 128
      world_full).1.fluid_profile_data FLUID_PROF_WRITE).count = 0 := by
    rw [h1]; norm_num
  refine ⟨rfl, he, hc, h3, h0, ?_⟩
  rw [h0, hc]; norm_num

/-- C8, as stated, fails: in `world_full` (started, end position 100, count
`2 ^ 32 - 1` on the write probe) a block at tick 50, strictly below the end
position, leaves the session started, but the count of the probe, instead of
growing by one, has wrapped to 0. -/
theorem early_block_count_wraps :
    world_full.fluid_profile_status = PROFILE_START ∧
    50 < world_full.fluid_profile_end_ticks ∧
    (world_full.fluid_profile_data FLUID_PROF_WRITE).count = 4294967295 ∧
    (fluid_profile_write 50 FLUID_PROF_WRITE (Dbl.fin 990) 2 128
        world_full).1.fluid_profile_status = PROFILE_START ∧
    ((fluid_profile_write 50 FLUID_PROF_WRITE (Dbl.fin 990) 2 128
        world_full).1.fluid_profile_data FLUID_PROF_WRITE).count = 0 ∧
    ((fluid_profile_write 50 FLUID_PROF_WRITE (Dbl.fin 990) 2 128
        world_full).1.fluid_profile_data FLUID_PROF_WRITE).count
      ≠ (world_full.fluid_profile_data FLUID_PROF_WRITE).count + 1 := by
  obtain ⟨h1, _, h3⟩ := write_active 50 FLUID_PROF_WRITE (Dbl.fin 990) 2 128 world_full rfl
  have hc : (world_full.fluid_profile_data FLUID_PROF_WRITE).count = 4294967295 := rfl
  have he : ¬ 50 ≥ world_full.fluid_profile_end_ticks := by decide
  rw [if_neg he] at h3
  rw [hc] at h1
  have h0 : ((fluid_profile_write 50 FLUID_PROF_WRITE (Dbl.fin 990) 2 128
      world_full).1.fluid_profile_data FLUID_PROF_WRITE).count = 0 := by
    rw [h1]; norm_num
  refine ⟨rfl, by decide, hc, h3, h0, ?_⟩
  rw [h0, hc]; norm_num

/-! ## Further claims on the recording macro -/

/-- C4: every call of `fluid_profile_data` with arguments `(voices, samples)`
adds `voices` to `n_voices` and `samples` to `n_samples` and increments `count`,
all in unsigned 32-bit arithmetic; and on a reset probe, recording with
`(2, 128)` and then with `(1, 64)` yields `count = 2`, `n_voices = 3`,
`n_samples = 192` and `total` the sum of the two measured deltas. -/
theorem record_adds_voices_samples (n : Fin FLUID_PROFILE_NBR) (r : Dbl) (voices samples : Nat)
    (w : World) (t0 t1 : ℚ) :
    (((fluid_profile_data n r voices samples w).1.fluid_profile_data n).n_voices
        = ((w.fluid_profile_data n).n_voices + voices) % 2 ^ 32 ∧
     ((fluid_profile_data n r voices samples w).1.fluid_profile_data n).n_samples
        = ((w.fluid_profile_data n).n_samples + samples) % 2 ^ 32 ∧
     ((fluid_profile_data n r voices samples w).1.fluid_profile_data n).count
        = ((w.fluid_profile_data n).count + 1) % 2 ^ 32) ∧
    (let p := (record_all n [Call.mk t0 2 128, Call.mk t1 1 64]
        (reset_at n w)).fluid_profile_data n
     p.count = 2 ∧ p.n_voices = 3 ∧ p.n_samples = 192 ∧
     p.total = Dbl.fin ((w.utime.readings w.utime.reads - t0)
                        + (w.utime.readings (w.utime.reads + 1) - t1))) := by
  refine ⟨⟨?_, ?_, ?_⟩, ?_⟩
  · rw [data_probe]; rfl
  · rw [data_probe]; rfl
  · rw [data_probe]; rfl
  · simp only [record_all, data_probe, data_clock, reset_at_probe, reset_at_utime, sub_fin_fin]
    simp [probe_step, reset_probe, add_fin_fin]

/-- C5: in every probe state reached from a reset probe by a sequence of
recordings through `fluid_profile_data`, if `count > 0` then `min <= max`
(the C comparison on doubles). -/
theorem min_le_max_of_count_pos (w : World) (n : Fin FLUID_PROFILE_NBR) (cs : List Call)
    (hc : 0 < ((record_all n cs (reset_at n w)).fluid_profile_data n).count) :
    Dbl.le ((record_all n cs (reset_at n w)).fluid_profile_data n).min
      ((record_all n cs (reset_at n w)).fluid_profile_data n).max = true := by
  cases cs with
  | nil =>
    simp only [record_all, reset_at_probe] at hc
    exact absurd hc (by simp [reset_probe])
  | cons c cs =>
    obtain ⟨m, M, h1, h2, _, h4, h5, h6, _, _⟩ := record_all_reset n c cs w
    rw [h5, h6, le_fin_fin]
    exact decide_eq_true (le_trans (le_refl m) (h4 m h1))

/-- C5 at a concrete input: two recordings on a cleared probe of `world0`. -/
theorem min_le_max_of_count_pos_witness :
    0 < ((record_all 3 [Call.mk 990 2 128, Call.mk 1000 1 64]
          (reset_at 3 world0)).fluid_profile_data 3).count ∧
    Dbl.le ((record_all 3 [Call.mk 990 2 128, Call.mk 1000 1 64]
          (reset_at 3 world0)).fluid_profile_data 3).min
      ((record_all 3 [Call.mk 990 2 128, Call.mk 1000 1 64]
          (reset_at 3 world0)).fluid_profile_data 3).max = true :=
  ⟨by decide, min_le_max_of_count_pos world0 3 [Call.mk 990 2 128, Call.mk 1000 1 64]
    (by decide)⟩

/-- C6: one recording reads the clock exactly once, measures
`delta = now - reference` from that reading, and leaves the caller's reference
variable equal to that reading; so the delta of the next recording chained on
that variable is the difference of two successive clock readings. -/
theorem record_reads_clock_once (n : Fin FLUID_PROFILE_NBR) (r : Dbl) (v s : Nat) (w : World) :
    let res := fluid_profile_data n r v s w
    let now := w.utime.readings w.utime.reads
    let delta := Dbl.sub (Dbl.fin now) r
    res.1.utime.reads = w.utime.reads + 1 ∧
    res.1.utime.readings = w.utime.readings ∧
    res.2 = Dbl.fin now ∧
    (res.1.fluid_profile_data n).total = Dbl.add (w.fluid_profile_data n).total delta ∧
    (res.1.fluid_profile_data n).min
      = (if Dbl.lt delta (w.fluid_profile_data n).min then delta
         else (w.fluid_profile_data n).min) ∧
    (res.1.fluid_profile_data n).max
      = (if Dbl.gt delta (w.fluid_profile_data n).max then delta
         else (w.fluid_profile_data n).max) ∧
    (∀ (k : Fin FLUID_PROFILE_NBR) (v2 s2 : Nat),
      ((fluid_profile_data k res.2 v2 s2 res.1).1.fluid_profile_data k).total
        = Dbl.add (res.1.fluid_profile_data k).total
            (Dbl.fin (w.utime.readings (w.utime.reads + 1) - now))) := by
  intro res now delta
  have hk : res.1.utime = { readings := w.utime.readings, reads := w.utime.reads + 1 } :=
    data_clock n r v s w
  have hr : res.2 = Dbl.fin now := data_ref n r v s w
  have hp : res.1.fluid_profile_data n = probe_step delta v s (w.fluid_profile_data n) :=
    data_probe n r v s w
  refine ⟨by rw [hk], by rw [hk], hr, by rw [hp]; rfl, by rw [hp]; rfl, by rw [hp]; rfl, ?_⟩
  intro k v2 s2
  rw [data_probe, hr, hk, sub_fin_fin]
  rfl

/-- C7: when the status is anything other than `PROFILE_START`, a call of
`fluid_profile` or of `fluid_profile_write` changes nothing: the whole state
(every probe, the status, the end position, the clock) and the caller's
reference variable are returned as they were. -/
theorem inactive_changes_nothing (ticks : Nat) (n : Fin FLUID_PROFILE_NBR) (r : Dbl)
    (v s : Nat) (w : World) (hs : w.fluid_profile_status ≠ PROFILE_START) :
    fluid_profile n r v s w = (w, r) ∧ fluid_profile_write ticks n r v s w = (w, r) := by
  refine ⟨?_, write_inactive ticks n r v s w hs⟩
  simp [fluid_profile, hs]

/-- C7 at a concrete input: the ready session `world_ready`, tick 150. -/
theorem inactive_changes_nothing_witness :
    world_ready.fluid_profile_status ≠ PROFILE_START ∧
    fluid_profile 4 (Dbl.fin 990) 2 64 world_ready = (world_ready, Dbl.fin 990) ∧
    fluid_profile_write 150 4 (Dbl.fin 990) 2 64 world_ready = (world_ready, Dbl.fin 990) :=
  ⟨by decide, inactive_changes_nothing 150 4 (Dbl.fin 990) 2 64 world_ready (by decide)⟩

/-- C8, amended: when the status is `PROFILE_START`, a call of
`fluid_profile_write` records one sample on the given probe whatever the tick
(the count becomes `(count + 1) mod 2 ^ 32`, which is `count + 1` whenever
`count < 2 ^ 32 - 1`) and keeps the end position; with the tick strictly below
`fluid_profile_end_ticks` it is exactly one recording and the status stays
`PROFILE_START`; the status becomes `PROFILE_READY` exactly when the tick is at
or above `fluid_profile_end_ticks`. -/
theorem write_started (ticks : Nat) (n : Fin FLUID_PROFILE_NBR) (r : Dbl) (v s : Nat)
    (w : World) (hs : w.fluid_profile_status = PROFILE_START) :
    let res := fluid_profile_write ticks n r v s w
    (res.1.fluid_profile_data n).count = ((w.fluid_profile_data n).count + 1) % 2 ^ 32 ∧
    ((w.fluid_profile_data n).count + 1 < 2 ^ 32 →
      (res.1.fluid_profile_data n).count = (w.fluid_profile_data n).count + 1) ∧
    res.1.fluid_profile_end_ticks = w.fluid_profile_end_ticks ∧
    (ticks < w.fluid_profile_end_ticks →
      res = fluid_profile_data n r v s w ∧ res.1.fluid_profile_status = PROFILE_START) ∧
    (res.1.fluid_profile_status = PROFILE_READY ↔ ticks ≥ w.fluid_profile_end_ticks) := by
  intro res
  obtain ⟨h1, h2, h3⟩ := write_active ticks n r v s w hs
  refine ⟨h1, ?_, h2, ?_, ?_⟩
  · intro hlt
    show ((fluid_profile_write ticks n r v s w).1.fluid_profile_data n).count = _
    rw [h1]; exact Nat.mod_eq_of_lt hlt
  · intro hlt
    have he : ¬ ticks ≥ (fluid_profile_data n r v s w).1.fluid_profile_end_ticks := by
      rw [data_end_ticks]; exact not_le.mpr hlt
    have hres : res = fluid_profile_data n r v s w := by
      show fluid_profile_write ticks n r v s w = _
      simp only [fluid_profile_write, hs, if_true, he, if_false]
    refine ⟨hres, ?_⟩
    rw [hres, data_status, hs]
  · show (fluid_profile_write ticks n r v s w).1.fluid_profile_status = PROFILE_READY ↔ _
    rw [h3]
    by_cases ht : ticks ≥ w.fluid_profile_end_ticks
    · simp [ht]
    · simp [ht]

/-- C8 amended, at a concrete input: `world0` (end position 100) at tick 50 stays
started with one sample recorded. -/
theorem write_started_witness :
    world0.fluid_profile_status = PROFILE_START ∧ 50 < world0.fluid_profile_end_ticks ∧
    (fluid_profile_write 50 0 (Dbl.fin 990) 2 64 world0).1.fluid_profile_status
      = PROFILE_START ∧
    ((fluid_profile_write 50 0 (Dbl.fin 990) 2 64 world0).1.fluid_profile_data 0).count = 1 :=
  ⟨rfl, by decide,
   ((write_started 50 0 (Dbl.fin 990) 2 64 world0 rfl).2.2.2.1 (by decide)).2,
   (write_started 50 0 (Dbl.fin 990) 2 64 world0 rfl).1⟩

/-- C9: after `N` recordings on a reset probe with `0 < N < 2 ^ 32`, the
aggregates are finite and the average lies between the extremes:
`min * count <= total <= max * count` and `min <= total / count <= max`
(exact arithmetic). -/
theorem average_between_extremes (w : World) (n : Fin FLUID_PROFILE_NBR) (c : Call)
    (cs : List Call) (hN : (c :: cs).length < 2 ^ 32) :
    let p := (record_all n (c :: cs) (reset_at n w)).fluid_profile_data n
    ∃ m M t : ℚ, p.min = Dbl.fin m ∧ p.max = Dbl.fin M ∧ p.total = Dbl.fin t ∧
      0 < p.count ∧
      m * (p.count : ℚ) ≤ t ∧ t ≤ M * (p.count : ℚ) ∧
      m ≤ t / (p.count : ℚ) ∧ t / (p.count : ℚ) ≤ M := by
  intro p
  obtain ⟨m, M, _, h2, _, h4, h5, h6, h7, h8⟩ := record_all_reset n c cs w
  have hcount : p.count = (c :: cs).length := by
    show ((record_all n (c :: cs) (reset_at n w)).fluid_profile_data n).count = _
    rw [h8, Nat.mod_eq_of_lt hN]
  have hlen := observed_length w.utime.readings (c :: cs) w.utime.reads
  have hpos : 0 < p.count := by rw [hcount]; simp
  have hposq : (0 : ℚ) < (p.count : ℚ) := by exact_mod_cast hpos
  have hlo := length_mul_le_sum _ m h2
  have hhi := sum_le_length_mul _ M h4
  rw [hlen, ← hcount] at hlo hhi
  refine ⟨m, M, _, h5, h6, h7, hpos, hlo, hhi, ?_, ?_⟩
  · rw [le_div_iff₀ hposq]; exact hlo
  · rw [div_le_iff₀ hposq]; exact hhi

/-- C9 at a concrete input: two recordings on a cleared probe of `world0`. -/
theorem average_between_extremes_witness :
    [Call.mk 990 2 128, Call.mk 1000 1 64].length < 2 ^ 32 ∧
    (let p := (record_all 5 [Call.mk 990 2 128, Call.mk 1000 1 64]
        (reset_at 5 world0)).fluid_profile_data 5
     ∃ m M t : ℚ, p.min = Dbl.fin m ∧ p.max = Dbl.fin M ∧ p.total = Dbl.fin t ∧
       0 < p.count ∧
       m * (p.count : ℚ) ≤ t ∧ t ≤ M * (p.count : ℚ) ∧
       m ≤ t / (p.count : ℚ) ∧ t / (p.count : ℚ) ≤ M) :=
  ⟨by decide, average_between_extremes world0 5 (Call.mk 990 2 128) [Call.mk 1000 1 64]
    (by decide)⟩

/-- The total of a probe with a finite total after a chain of recordings, the
reference variable and the number of clock calls at the end of the chain. -/
theorem record_chain_fin (n : Fin FLUID_PROFILE_NBR) (cs : List (Nat × Nat)) :
    ∀ (a : Nat × Nat) (w : World) (r t : ℚ), (w.fluid_profile_data n).total = Dbl.fin t →
      ((record_chain n (a :: cs) (w, Dbl.fin r)).1.fluid_profile_data n).total
        = Dbl.fin (t + (w.utime.readings (w.utime.reads + cs.length) - r)) ∧
      (record_chain n (a :: cs) (w, Dbl.fin r)).2
        = Dbl.fin (w.utime.readings (w.utime.reads + cs.length)) ∧
      (record_chain n (a :: cs) (w, Dbl.fin r)).1.utime.reads
        = w.utime.reads + (cs.length + 1) := by
  induction cs with
  | nil =>
    intro a w r t ht
    simp only [record_chain, List.length_nil, add_zero]
    refine ⟨?_, data_ref n _ _ _ w, by rw [data_clock]⟩
    rw [data_probe, sub_fin_fin]
    simp [probe_step, ht, add_fin_fin]
  | cons b cs ih =>
    intro a w r t ht
    have hstep : fluid_profile_data n (Dbl.fin r) a.1 a.2 w
        = ((fluid_profile_data n (Dbl.fin r) a.1 a.2 w).1,
           Dbl.fin (w.utime.readings w.utime.reads)) :=
      Prod.ext rfl (data_ref n _ _ _ w)
    have ht1 : ((fluid_profile_data n (Dbl.fin r) a.1 a.2 w).1.fluid_profile_data n).total
        = Dbl.fin (t + (w.utime.readings w.utime.reads - r)) := by
      rw [data_probe, sub_fin_fin]
      simp [probe_step, ht, add_fin_fin]
    obtain ⟨i1, i2, i3⟩ := ih b _ (w.utime.readings w.utime.reads) _ ht1
    rw [data_clock] at i1 i2 i3
    have hunf : record_chain n (a :: b :: cs) (w, Dbl.fin r)
        = record_chain n (b :: cs) ((fluid_profile_data n (Dbl.fin r) a.1 a.2 w).1,
            Dbl.fin (w.utime.readings w.utime.reads)) := by
      rw [← hstep]; rfl
    rw [hunf, i1, i2, i3]
    simp only [List.length_cons]
    have hidx : w.utime.reads + 1 + cs.length = w.utime.reads + (cs.length + 1) := by omega
    rw [hidx]
    refine ⟨?_, rfl, by omega⟩
    congr 1
    ring

/-- C10: when `N >= 1` recordings on a reset probe are chained through one
shared reference variable that starts at `r0`, the `N` calls consume the clock
readings `t_1 .. t_N`, the total of the probe is `t_N - r0`, and the reference
variable ends equal to `t_N` (exact arithmetic). -/
theorem chained_total_telescopes (n : Fin FLUID_PROFILE_NBR) (w : World) (r0 : ℚ)
    (a : Nat × Nat) (cs : List (Nat × Nat)) :
    let res := record_chain n (a :: cs) (reset_at n w, Dbl.fin r0)
    let tN := w.utime.readings (w.utime.reads + cs.length)
    res.1.utime.reads = w.utime.reads + (a :: cs).length ∧
    (res.1.fluid_profile_data n).total = Dbl.fin (tN - r0) ∧ res.2 = Dbl.fin tN := by
  intro res tN
  have ht : ((reset_at n w).fluid_profile_data n).total = Dbl.fin 0 := by
    rw [reset_at_probe]; rfl
  obtain ⟨h1, h2, h3⟩ := record_chain_fin n cs a (reset_at n w) r0 0 ht
  rw [reset_at_utime] at h1 h2 h3
  refine ⟨h3, ?_, h2⟩
  show ((record_chain n (a :: cs) (reset_at n w, Dbl.fin r0)).1.fluid_profile_data n).total = _
  rw [h1, zero_add]

/-! ## The atomic float cell: set then get -/

/-- Four bytes made from a pattern below `2 ^ 32` hold that pattern. -/
theorem bits_of_bytes_of_bits (b : Nat) (hb : b < 2 ^ 32) :
    bits_of_bytes (bytes_of_bits b) = b := by
  simp only [bits_of_bytes, bytes_of_bits, List.foldr]
  omega

/-- A `memcpy` of four bytes onto a four-byte object replaces it whole. -/
theorem memcpy_whole (dst : List Nat) (b : Nat) (hd : dst.length = 4) :
    memcpy dst (bytes_of_bits b) 4 = bytes_of_bits b := by
  have h : dst.drop 4 = [] := List.drop_eq_nil_of_le (le_of_eq hd)
  simp [memcpy, bytes_of_bits, h]

theorem take_four_bytes (b : Nat) (rest : List Nat) :
    (bytes_of_bits b ++ rest).take 4 = bytes_of_bits b := rfl

/-- The `int32_t` whose four bytes hold a pattern below `2 ^ 32`. -/
theorem int32_of_bytes_of_bits (b : Nat) (hb : b < 2 ^ 32) (rest : List Nat) :
    int32_of_bytes (bytes_of_bits b ++ rest)
      = if b < 2 ^ 31 then (b : Int) else (b : Int) - 2 ^ 32 := by
  rw [int32_of_bytes, take_four_bytes, bits_of_bytes_of_bits b hb]

/-- The four bytes of the `int32_t` read from a pattern hold that pattern. -/
theorem int32_bytes_signed (b : Nat) (hb : b < 2 ^ 32) :
    int32_bytes (if b < 2 ^ 31 then (b : Int) else (b : Int) - 2 ^ 32) = bytes_of_bits b := by
  have h : ((if b < 2 ^ 31 then (b : Int) else (b : Int) - 2 ^ 32) % 2 ^ 32).toNat = b := by
    split <;> omega
  rw [int32_bytes, h]

/-- The cell after `fluid_atomic_float_set` holds the bytes of the pattern;
bytes of the cell beyond the fourth are kept. -/
theorem float_set_cell (fptr : List Nat) (val : Nat) (hv : val < 2 ^ 32) :
    fluid_atomic_float_set fptr val = bytes_of_bits val ++ fptr.drop 4 := by
  have hsrc : memcpy (int32_bytes 0) (float_bytes val) 4 = bytes_of_bits val := by
    rw [float_bytes, Nat.mod_eq_of_lt hv]; exact memcpy_whole _ _ rfl
  have hi := int32_of_bytes_of_bits val hv []
  rw [List.append_nil] at hi
  show fluid_atomic_int_set fptr (int32_of_bytes (memcpy (int32_bytes 0) (float_bytes val) 4)) = _
  rw [hsrc, hi, fluid_atomic_int_set, int32_bytes_signed val hv]

/-- C11: `fluid_atomic_float_get` undoes `fluid_atomic_float_set`: for every
32-bit float pattern `val` (NaNs, infinities and signed zeros included) and
every previous content of the cell, storing `val` and then reading the cell
returns exactly the pattern `val`. -/
theorem float_get_set (fptr : List Nat) (val : Nat) (hv : val < 2 ^ 32) :
    fluid_atomic_float_get (fluid_atomic_float_set fptr val) = val := by
  rw [float_set_cell fptr val hv]
  show float_of_bytes (memcpy (float_bytes 0)
    (int32_bytes (fluid_atomic_int_get (bytes_of_bits val ++ fptr.drop 4))) 4) = val
  rw [fluid_atomic_int_get, int32_of_bytes_of_bits val hv, int32_bytes_signed val hv,
    memcpy_whole (float_bytes 0) val rfl, float_of_bytes]
  show bits_of_bytes (bytes_of_bits val) = val
  exact bits_of_bytes_of_bits val hv

/-- C11 at a concrete input: the negative quiet NaN `0xFFC00001` stored into a
cell that held other bytes. -/
theorem float_get_set_witness :
    0xFFC00001 < 2 ^ 32 ∧
    fluid_atomic_float_get (fluid_atomic_float_set [1, 2, 3, 4] 0xFFC00001) = 0xFFC00001 :=
  ⟨by decide, float_get_set [1, 2, 3, 4] 0xFFC00001 (by decide)⟩

end FluidSys
